import Mathlib

/-!
Verification of the progress-tracking subsystem of the developer-labs site:
the StorageManager (namespaced localStorage wrapper, src/README.md appendix)
and the ProgressTracker (src/unnamed/part_001), shallowly embedded in Lean.

Modelling conventions:
- A JS object is an association list with insertion order; property write
  updates the value in place, property delete removes the entry.
- localStorage is a list of key/cell pairs plus an availability flag; when
  the flag is false every storage primitive throws, which the source catches.
- A stored cell is either a value that JSON.parse recovers, or corrupt text
  on which JSON.parse throws.  JSON.stringify never fails on the plain data
  this subsystem writes, and stringify-then-parse is the identity on it, so
  serialization is modelled as storing the structured value itself.
- The live DOM count of navigation markers (getTotalSteps) is a parameter.
- Number arithmetic is modelled exactly (the quantities are small integers).
- dispatched CustomEvents are recorded in an event log carried by the state.
-/

namespace DevLabs

/-- A JSON scalar value, with JS truthiness.  The tracker itself only ever
stores the boolean true, but imported data may carry other scalars. -/
inductive JVal where
  | null
  | jbool (b : Bool)
  | jnum (n : Int)
  | jstr (s : String)
deriving DecidableEq, Repr

/-- JS truthiness of a scalar value. -/
def JVal.truthy : JVal → Bool
  | .null => false
  | .jbool b => b
  | .jnum n => n != 0
  | .jstr s => s != ""

/-- A JS object mapping step ids to values, in insertion order. -/
abbrev ProgressMap := List (String × JVal)

/-- JS property read on an object: value of the key, if present. -/
def assocGet {α : Type} : List (String × α) → String → Option α
  | [], _ => none
  | kv :: rest, k => if kv.1 = k then some kv.2 else assocGet rest k

/-- JS property write: update an existing key in place, else append. -/
def assocSet {α : Type} : List (String × α) → String → α → List (String × α)
  | [], k, v => [(k, v)]
  | kv :: rest, k, v => if kv.1 = k then (k, v) :: rest else kv :: assocSet rest k v

/-- JS property delete: remove the entry with the key. -/
def assocDel {α : Type} : List (String × α) → String → List (String × α)
  | [], _ => []
  | kv :: rest, k => if kv.1 = k then assocDel rest k else kv :: assocDel rest k

/-- JS truthiness of an optional property read (absent reads as undefined,
which is falsy). -/
def truthyOpt : Option JVal → Bool
  | none => false
  | some v => v.truthy

/-- JS String.startsWith, as a character-list prefix test. -/
def strStartsWith (pre s : String) : Bool := pre.data.isPrefixOf s.data

/-- A JSON value as this subsystem stores it: a scalar or a flat object. -/
inductive StoredVal where
  | scalar (v : JVal)
  | object (m : ProgressMap)
deriving DecidableEq, Repr

/-- A localStorage cell observed through JSON.parse: either a value that
parses back, or corrupt text on which JSON.parse throws. -/
inductive RawItem where
  | ok (v : StoredVal)
  | corrupt
deriving DecidableEq, Repr

/-- The browser localStorage for the origin: cells, an availability flag
(false means every storage primitive throws: disabled, private browsing or
quota), and a count of successful writes. -/
structure LocalStorage where
  items : List (String × RawItem)
  available : Bool
  writes : Nat
deriving DecidableEq, Repr

/-- StorageManager from the README appendix: holds the namespace string. -/
structure StorageManager where
  ns : String
deriving DecidableEq, Repr

/-- Key with namespace (source method getKey). -/
def StorageManager.getKey (sm : StorageManager) (key : String) : String :=
  sm.ns ++ "_" ++ key

/-- StorageManager.save: JSON.stringify the data (never fails on these
values) and setItem under the namespaced key; any throw is caught and
reported as false with storage untouched. -/
def StorageManager.save (sm : StorageManager) (st : LocalStorage)
    (key : String) (v : StoredVal) : Bool × LocalStorage :=
  if st.available then
    (true, { st with items := assocSet st.items (sm.getKey key) (.ok v),
                     writes := st.writes + 1 })
  else
    (false, st)

/-- StorageManager.load: getItem then JSON.parse; returns the default when
the cell is absent, when JSON.parse throws (corrupt cell), or when the
storage primitive throws (unavailable).  Total: it never throws. -/
def StorageManager.load (sm : StorageManager) (st : LocalStorage)
    (key : String) (dflt : StoredVal) : StoredVal :=
  if st.available then
    match assocGet st.items (sm.getKey key) with
    | none => dflt
    | some .corrupt => dflt
    | some (.ok v) => v
  else
    dflt

/-- StorageManager.remove: removeItem under the namespaced key, catching
any throw. -/
def StorageManager.remove (sm : StorageManager) (st : LocalStorage)
    (key : String) : Bool × LocalStorage :=
  if st.available then
    (true, { st with items := assocDel st.items (sm.getKey key) })
  else
    (false, st)

/-- StorageManager.clear: snapshot Object.keys(localStorage), keep those
starting with the namespace prefix, and removeItem each; a throw anywhere
is caught and reported as false. -/
def StorageManager.clear (sm : StorageManager) (st : LocalStorage) :
    Bool × LocalStorage :=
  if st.available then
    let nsKeys := (st.items.map Prod.fst).filter
      (fun k => strStartsWith (sm.ns ++ "_") k)
    (true, { st with items := nsKeys.foldl assocDel st.items })
  else
    (false, st)

/-- The progress summary computed by getProgressSummary. -/
structure Summary where
  totalSteps : Nat
  completedSteps : Nat
  percentage : Nat
  completedStepIds : List String
deriving DecidableEq, Repr

/-- A dispatched progress CustomEvent: its type string, the stepId from the
detail when present, and the freshly computed summary the detail carries. -/
structure JEvent where
  name : String
  stepId : Option String
  summary : Summary
deriving DecidableEq, Repr

/-- The ProgressTracker state: in-memory progress record, the backing
localStorage, and the log of dispatched events. -/
structure Tracker where
  progress : ProgressMap
  store : LocalStorage
  events : List JEvent
deriving DecidableEq, Repr

/-- The tracker constructs its StorageManager with namespace mcp. -/
def mcpStorage : StorageManager := ⟨"mcp"⟩

/-- getTotalSteps reads the live count of navigation markers on the page;
the count is a parameter of the model. -/
def getTotalSteps (navCount : Nat) : Nat := navCount

/-- getCompletedStepsCount: Object.values(progress).filter(Boolean).length. -/
def getCompletedStepsCount (p : ProgressMap) : Nat :=
  ((p.map Prod.snd).filter JVal.truthy).length

/-- getCompletionPercentage: Math.round((completed / total) * 100) when
total is positive, else 0.  For nonnegative x, Math.round x equals
floor (x + 1/2), and floor (100 * c / t + 1/2) is the integer division
(200 * c + t) / (2 * t); arithmetic is modelled exactly. -/
def getCompletionPercentage (navCount : Nat) (p : ProgressMap) : Nat :=
  let totalSteps := getTotalSteps navCount
  let completedSteps := getCompletedStepsCount p
  if totalSteps > 0 then (200 * completedSteps + totalSteps) / (2 * totalSteps)
  else 0

/-- getProgressSummary: totals, percentage and
Object.keys(progress).filter(id => progress[id]). -/
def getProgressSummary (navCount : Nat) (p : ProgressMap) : Summary :=
  { totalSteps := getTotalSteps navCount
    completedSteps := getCompletedStepsCount p
    percentage := getCompletionPercentage navCount p
    completedStepIds := (p.map Prod.fst).filter (fun k => truthyOpt (assocGet p k)) }

/-- saveProgress: storage.save of the current record under key progress. -/
def Tracker.saveProgress (t : Tracker) : Bool × LocalStorage :=
  mcpStorage.save t.store "progress" (.object t.progress)

/-- loadProgress: storage.load under key progress with default empty
object. -/
def Tracker.loadProgress (t : Tracker) : StoredVal :=
  mcpStorage.load t.store "progress" (.object [])

/-- dispatchProgressEvent: dispatch a CustomEvent named progress: followed
by the type, whose detail carries the freshly computed summary. -/
def Tracker.dispatchProgressEvent (t : Tracker) (navCount : Nat)
    (eventType : String) (stepId : Option String) : Tracker :=
  { t with events :=
      t.events ++ [⟨"progress:" ++ eventType, stepId, getProgressSummary navCount t.progress⟩] }

/-- isStepCompleted: Boolean(progress[stepId]). -/
def Tracker.isStepCompleted (t : Tracker) (stepId : String) : Bool :=
  truthyOpt (assocGet t.progress stepId)

/-- markStepCompleted: reject a falsy stepId; otherwise set
progress[stepId] = true, save, and when the save succeeded update the UI
and dispatch step-completed; returns the save result.  Note the in-memory
record is written before the save is attempted. -/
def Tracker.markStepCompleted (t : Tracker) (navCount : Nat)
    (stepId : String) : Bool × Tracker :=
  if stepId = "" then (false, t)
  else
    let t1 : Tracker := { t with progress := assocSet t.progress stepId (.jbool true) }
    let res := t1.saveProgress
    let t2 : Tracker := { t1 with store := res.2 }
    if res.1 then (true, t2.dispatchProgressEvent navCount "step-completed" (some stepId))
    else (false, t2)

/-- markStepCompleted at a possibly absent argument: undefined is falsy, so
the guard rejects it before any mutation, exactly as the empty string. -/
def Tracker.markStepCompletedArg (t : Tracker) (navCount : Nat)
    (stepId : Option String) : Bool × Tracker :=
  match stepId with
  | none => (false, t)
  | some s => t.markStepCompleted navCount s

/-- markStepIncomplete: reject a falsy stepId; otherwise delete
progress[stepId], save, and when the save succeeded update the UI and
dispatch step-incompleted; returns the save result. -/
def Tracker.markStepIncomplete (t : Tracker) (navCount : Nat)
    (stepId : String) : Bool × Tracker :=
  if stepId = "" then (false, t)
  else
    let t1 : Tracker := { t with progress := assocDel t.progress stepId }
    let res := t1.saveProgress
    let t2 : Tracker := { t1 with store := res.2 }
    if res.1 then (true, t2.dispatchProgressEvent navCount "step-incompleted" (some stepId))
    else (false, t2)

/-- resetProgress: empty the record, save, and when the save succeeded
dispatch progress-reset. -/
def Tracker.resetProgress (t : Tracker) (navCount : Nat) : Bool × Tracker :=
  let t1 : Tracker := { t with progress := [] }
  let res := t1.saveProgress
  let t2 : Tracker := { t1 with store := res.2 }
  if res.1 then (true, t2.dispatchProgressEvent navCount "progress-reset" none)
  else (false, t2)

/-- The snapshot exportProgress returns; the timestamp
(new Date().toISOString()) is a parameter of the model. -/
structure ExportData where
  progress : ProgressMap
  summary : Summary
  timestamp : String
deriving DecidableEq, Repr

/-- exportProgress: a snapshot of a copy of the record, the current
summary, and a timestamp. -/
def Tracker.exportProgress (t : Tracker) (navCount : Nat)
    (timestamp : String) : ExportData :=
  { progress := t.progress
    summary := getProgressSummary navCount t.progress
    timestamp := timestamp }

/-- The argument importProgress receives.  nonObject stands for every value
the guard rejects: null and undefined (falsy) and values whose typeof is
not object.  obj stands for an accepted object, whose progress field is
none when missing or not spreadable to entries (spreading undefined, null,
a boolean or a number yields the empty object). -/
inductive ImportData where
  | nonObject
  | obj (progress : Option ProgressMap)
deriving DecidableEq, Repr

/-- importProgress: reject a non-object argument with no mutation; else
replace the record with a spread copy of data.progress (empty when the
field is missing), save, and when the save succeeded update the UI and
dispatch progress-imported; returns the save result. -/
def Tracker.importProgress (t : Tracker) (navCount : Nat)
    (d : ImportData) : Bool × Tracker :=
  match d with
  | .nonObject => (false, t)
  | .obj pf =>
    let t1 : Tracker := { t with progress := pf.getD [] }
    let res := t1.saveProgress
    let t2 : Tracker := { t1 with store := res.2 }
    if res.1 then (true, t2.dispatchProgressEvent navCount "progress-imported" none)
    else (false, t2)

/-- Math.round for a nonnegative rational, as the spec words it:
round x = floor (x + 1/2). -/
def mathRound (x : ℚ) : ℤ := Int.floor (x + 1 / 2)

/-! ### Association-list lemmas -/

theorem assocGet_assocSet_self {α : Type} (l : List (String × α)) (k : String) (v : α) :
    assocGet (assocSet l k v) k = some v := by
  induction l with
  | nil => simp [assocGet, assocSet]
  | cons kv rest ih =>
    by_cases h : kv.1 = k
    · simp [assocSet, h, assocGet]
    · simp [assocSet, h, assocGet, ih]

theorem assocGet_assocDel_self {α : Type} (l : List (String × α)) (k : String) :
    assocGet (assocDel l k) k = none := by
  induction l with
  | nil => simp [assocGet, assocDel]
  | cons kv rest ih =>
    by_cases h : kv.1 = k
    · simpa [assocDel, h] using ih
    · simp [assocDel, h, assocGet, ih]

theorem assocSet_of_get_eq {α : Type} (l : List (String × α)) (k : String) (v : α)
    (h : assocGet l k = some v) : assocSet l k v = l := by
  induction l with
  | nil => simp [assocGet] at h
  | cons kv rest ih =>
    by_cases hk : kv.1 = k
    · simp only [assocGet, hk, if_pos rfl] at h
      simp only [assocSet, hk, if_pos rfl]
      obtain ⟨k1, v1⟩ := kv
      simp_all
    · simp only [assocGet, if_neg hk] at h
      simp [assocSet, hk, ih h]

theorem mem_assocDel {α : Type} (l : List (String × α)) (k : String) (kv : String × α) :
    kv ∈ assocDel l k ↔ kv ∈ l ∧ kv.1 ≠ k := by
  induction l with
  | nil => simp [assocDel]
  | cons hd rest ih =>
    by_cases h : hd.1 = k
    · rw [assocDel, if_pos h, ih]
      constructor
      · exact fun ⟨h1, h2⟩ => ⟨List.mem_cons_of_mem _ h1, h2⟩
      · rintro ⟨h1, h2⟩
        rcases List.mem_cons.1 h1 with h3 | h3
        · exact absurd (h3 ▸ h) h2
        · exact ⟨h3, h2⟩
    · rw [assocDel, if_neg h]
      simp only [List.mem_cons, ih]
      constructor
      · rintro (h1 | ⟨h1, h2⟩)
        · exact ⟨Or.inl h1, h1 ▸ h⟩
        · exact ⟨Or.inr h1, h2⟩
      · rintro ⟨h1 | h1, h2⟩
        · exact Or.inl h1
        · exact Or.inr ⟨h1, h2⟩

theorem mem_foldl_assocDel {α : Type} (ks : List String) (l : List (String × α))
    (kv : String × α) :
    kv ∈ ks.foldl assocDel l ↔ kv ∈ l ∧ kv.1 ∉ ks := by
  induction ks generalizing l with
  | nil => simp
  | cons k ks ih =>
    simp only [List.foldl_cons, ih, mem_assocDel, List.mem_cons]
    tauto

theorem not_mem_keys_assocDel {α : Type} (l : List (String × α)) (k : String) :
    k ∉ (assocDel l k).map Prod.fst := by
  intro hmem
  rcases List.mem_map.1 hmem with ⟨kv, hkv, hfst⟩
  exact ((mem_assocDel l k kv).1 hkv).2 hfst

theorem mem_keys_assocSet {α : Type} (l : List (String × α)) (k : String) (v : α)
    (x : String) :
    x ∈ (assocSet l k v).map Prod.fst ↔ x ∈ l.map Prod.fst ∨ x = k := by
  induction l with
  | nil => simp [assocSet]
  | cons hd rest ih =>
    by_cases h : hd.1 = k
    · rw [assocSet, if_pos h]
      simp only [List.map_cons, List.mem_cons, ih]
      subst h
      tauto
    · rw [assocSet, if_neg h]
      simp only [List.map_cons, List.mem_cons, ih]
      tauto

theorem nodup_keys_assocSet {α : Type} (l : List (String × α)) (k : String) (v : α)
    (hnd : (l.map Prod.fst).Nodup) : ((assocSet l k v).map Prod.fst).Nodup := by
  induction l with
  | nil => simp [assocSet]
  | cons hd rest ih =>
    simp only [List.map_cons, List.nodup_cons] at hnd
    by_cases h : hd.1 = k
    · rw [assocSet, if_pos h]
      simp only [List.map_cons, List.nodup_cons]
      exact ⟨h ▸ hnd.1, hnd.2⟩
    · rw [assocSet, if_neg h]
      simp only [List.map_cons, List.nodup_cons]
      refine ⟨fun hmem => ?_, ih hnd.2⟩
      rcases (mem_keys_assocSet rest k v hd.1).1 hmem with h1 | h1
      · exact hnd.1 h1
      · exact h h1

theorem keys_assocDel {α : Type} (l : List (String × α)) (k : String) :
    (assocDel l k).map Prod.fst = (l.map Prod.fst).filter (fun x => x != k) := by
  induction l with
  | nil => simp [assocDel]
  | cons hd rest ih =>
    by_cases h : hd.1 = k
    · rw [assocDel, if_pos h]
      simp [List.filter_cons, h, ih]
    · rw [assocDel, if_neg h]
      simp [List.filter_cons, h, ih]

theorem nodup_keys_assocDel {α : Type} (l : List (String × α)) (k : String)
    (hnd : (l.map Prod.fst).Nodup) : ((assocDel l k).map Prod.fst).Nodup := by
  rw [keys_assocDel]
  exact hnd.filter _

/-! ### Summary-consistency lemmas -/

theorem completedStepIds_eq (p : ProgressMap) (hnd : (p.map Prod.fst).Nodup) :
    (p.map Prod.fst).filter (fun k => truthyOpt (assocGet p k))
      = (p.filter (fun kv => kv.2.truthy)).map Prod.fst := by
  induction p with
  | nil => simp
  | cons hd rest ih =>
    simp only [List.map_cons, List.nodup_cons] at hnd
    have hfst : truthyOpt (assocGet (hd :: rest) hd.1) = hd.2.truthy := by
      simp [assocGet, truthyOpt]
    have hrest : ∀ x ∈ rest.map Prod.fst,
        truthyOpt (assocGet (hd :: rest) x) = truthyOpt (assocGet rest x) := by
      intro x hx
      have hne : ¬ hd.1 = x := fun he => hnd.1 (he ▸ hx)
      simp [assocGet, hne]
    have hcongr : (rest.map Prod.fst).filter (fun k => truthyOpt (assocGet (hd :: rest) k))
        = (rest.map Prod.fst).filter (fun k => truthyOpt (assocGet rest k)) :=
      List.filter_congr hrest
    cases htr : hd.2.truthy <;>
      simp [List.filter_cons, hfst, htr, hcongr, ih hnd.2]

theorem count_eq_length_filter (p : ProgressMap) :
    getCompletedStepsCount p = (p.filter (fun kv => kv.2.truthy)).length := by
  unfold getCompletedStepsCount
  induction p with
  | nil => simp
  | cons hd rest ih =>
    cases htr : hd.2.truthy <;> simp [List.filter_cons, htr, ih]

/-! ### Percentage arithmetic lemmas -/

theorem percentage_eq_mathRound (c t : Nat) (ht : 0 < t) :
    (((200 * c + t) / (2 * t) : Nat) : ℤ) = mathRound ((100 * c : ℚ) / (t : ℚ)) := by
  have ht0 : (t : ℚ) ≠ 0 := Nat.cast_ne_zero.mpr ht.ne'
  unfold mathRound
  have key : (100 * c : ℚ) / (t : ℚ) + 1 / 2
      = (((200 * c + t : ℕ) : ℤ) : ℚ) / ((2 * t : ℕ) : ℚ) := by
    field_simp
    ring
  rw [key, Rat.floor_intCast_div_natCast]
  exact_mod_cast (Int.natCast_div (200 * c + t) (2 * t)).symm

theorem percentage_le_100 (c t : Nat) (hc : c ≤ t) (ht : 0 < t) :
    (200 * c + t) / (2 * t) ≤ 100 := by
  have h2t : 0 < 2 * t := by omega
  have hlt : (200 * c + t) / (2 * t) < 101 := by
    rw [Nat.div_lt_iff_lt_mul h2t]
    omega
  omega

/-! ### Concrete states used by counterexamples and witnesses -/

/-- A record with two truthy entries, viewed on a page with one marker:
the stored record can outgrow the live page. -/
def overfullMap : ProgressMap := [("a", .jbool true), ("b", .jbool true)]

/-- A record with one completed step. -/
def demoMap : ProgressMap := [("3", .jbool true)]

/-- An unavailable localStorage: every primitive throws. -/
def deadStore : LocalStorage := { items := [], available := false, writes := 0 }

/-- A tracker whose backing storage is unavailable. -/
def deadTracker : Tracker := { progress := [], store := deadStore, events := [] }

/-- A tracker with working storage and no progress. -/
def demoTracker : Tracker :=
  { progress := [], store := { items := [], available := true, writes := 0 }, events := [] }

/-- A tracker with working storage whose step 3 is already completed. -/
def completedTracker : Tracker :=
  { progress := [("3", .jbool true)],
    store := { items := [], available := true, writes := 0 }, events := [] }

/-- Unavailable storage that nonetheless holds a progress cell. -/
def naStore : LocalStorage :=
  { items := [("mcp_progress", .ok (.object [("1", .jbool true)]))],
    available := false, writes := 0 }

/-- Available storage with no cells. -/
def emptyStore : LocalStorage := { items := [], available := true, writes := 0 }

/-- Available storage whose progress cell fails to parse. -/
def corruptStore : LocalStorage :=
  { items := [("mcp_progress", .corrupt)], available := true, writes := 0 }

/-- Available storage holding one mcp cell and one theme cell. -/
def mixedStore : LocalStorage :=
  { items := [("mcp_progress", .ok (.object [("1", .jbool true)])),
              ("theme_preference", .ok (.scalar (.jstr "dark")))],
    available := true, writes := 0 }

/-- A record with a truthy and a falsy entry, keys distinct. -/
def c10Map : ProgressMap := [("1", .jbool true), ("2", .null)]

/-! ### Claim theorems -/

/-- Claim C1, counterexample: with one navigation marker on the page and a
record holding two truthy entries, getSummary reports completedSteps = 2
above totalSteps = 1 and a percentage of 200, outside [0,100].  The claim
as stated is therefore false. -/
theorem c1_counterexample :
    ¬ ((getProgressSummary 1 overfullMap).percentage ≤ 100 ∧
       (getProgressSummary 1 overfullMap).completedSteps
         ≤ (getProgressSummary 1 overfullMap).totalSteps) := by
  decide

/-- Claim C1, amended: percentage is 0 when totalSteps is 0 (no division by
zero), percentage equals round of 100 * completedSteps / totalSteps
whenever totalSteps is positive, and percentage lies in [0,100] whenever
completedSteps is at most totalSteps.  completedSteps can exceed totalSteps
because the record may hold more truthy entries than the current page has
markers, and percentage then exceeds 100. -/
theorem c1_percentage_amended (navCount : Nat) (p : ProgressMap) :
    (navCount = 0 → (getProgressSummary navCount p).percentage = 0) ∧
    (0 < navCount →
      ((getProgressSummary navCount p).percentage : ℤ)
        = mathRound ((100 * (getCompletedStepsCount p) : ℚ) / (navCount : ℚ))) ∧
    (getCompletedStepsCount p ≤ navCount →
      (getProgressSummary navCount p).percentage ≤ 100) := by
  refine ⟨?_, ?_, ?_⟩
  · intro h
    subst h
    simp [getProgressSummary, getCompletionPercentage, getTotalSteps]
  · intro h
    have hb := percentage_eq_mathRound (getCompletedStepsCount p) navCount h
    simpa [getProgressSummary, getCompletionPercentage, getTotalSteps, h] using hb
  · intro h
    rcases Nat.eq_zero_or_pos navCount with h0 | h0
    · subst h0
      simp [getProgressSummary, getCompletionPercentage, getTotalSteps]
    · have hb := percentage_le_100 (getCompletedStepsCount p) navCount h h0
      simpa [getProgressSummary, getCompletionPercentage, getTotalSteps, h0] using hb

/-- Witness for the amended C1, at a page of five markers and one
completed step, and at a page of no markers. -/
theorem c1_percentage_amended_witness :
    (getProgressSummary 0 demoMap).percentage = 0 ∧
    ((getProgressSummary 5 demoMap).percentage : ℤ)
      = mathRound ((100 * (getCompletedStepsCount demoMap) : ℚ) / (5 : ℚ)) ∧
    (getProgressSummary 5 demoMap).percentage ≤ 100 :=
  ⟨(c1_percentage_amended 0 demoMap).1 rfl,
   (c1_percentage_amended 5 demoMap).2.1 (by decide),
   (c1_percentage_amended 5 demoMap).2.2 (by decide)⟩

/-- Claim C2, counterexample: with unavailable storage, markStepCompleted
on a fresh tracker returns false yet the in-memory record now holds the
step, because the source writes the record before attempting the save.
The claim that the in-memory ProgressRecord is left unchanged is false. -/
theorem c2_counterexample :
    (deadTracker.markStepCompleted 5 "1").1 = false ∧
    (deadTracker.markStepCompleted 5 "1").2.progress ≠ deadTracker.progress := by
  decide

/-- Claim C2, amended: when the storage write fails, markStepCompleted and
markStepIncomplete catch the error and report failure by returning false,
the persisted storage and the event log are unchanged, but the in-memory
record retains the mutation (the set or the delete happens before the save
is attempted). -/
theorem c2_storage_failure_amended (navCount : Nat) (stepId : String) (t : Tracker)
    (hs : stepId ≠ "") (hav : t.store.available = false) :
    (t.markStepCompleted navCount stepId).1 = false ∧
    (t.markStepCompleted navCount stepId).2.store = t.store ∧
    (t.markStepCompleted navCount stepId).2.events = t.events ∧
    (t.markStepCompleted navCount stepId).2.progress
      = assocSet t.progress stepId (.jbool true) ∧
    (t.markStepIncomplete navCount stepId).1 = false ∧
    (t.markStepIncomplete navCount stepId).2.store = t.store ∧
    (t.markStepIncomplete navCount stepId).2.events = t.events ∧
    (t.markStepIncomplete navCount stepId).2.progress = assocDel t.progress stepId := by
  simp [Tracker.markStepCompleted, Tracker.markStepIncomplete, hs, Tracker.saveProgress,
    StorageManager.save, hav]

/-- Witness for the amended C2, at the tracker with unavailable storage. -/
theorem c2_storage_failure_amended_witness :
    (deadTracker.markStepCompleted 5 "1").1 = false ∧
    (deadTracker.markStepCompleted 5 "1").2.store = deadTracker.store ∧
    (deadTracker.markStepCompleted 5 "1").2.events = deadTracker.events ∧
    (deadTracker.markStepCompleted 5 "1").2.progress
      = assocSet deadTracker.progress "1" (.jbool true) ∧
    (deadTracker.markStepIncomplete 5 "1").1 = false ∧
    (deadTracker.markStepIncomplete 5 "1").2.store = deadTracker.store ∧
    (deadTracker.markStepIncomplete 5 "1").2.events = deadTracker.events ∧
    (deadTracker.markStepIncomplete 5 "1").2.progress = assocDel deadTracker.progress "1" :=
  c2_storage_failure_amended 5 "1" deadTracker (by decide) rfl

/-- Claim C3: for a non-empty stepId, markStepCompleted then isStepCompleted
yields true, markStepIncomplete then isStepCompleted yields false, and
after markStepIncomplete the key is absent from the record entirely. -/
theorem c3_mark_then_query (navCount : Nat) (stepId : String) (t : Tracker)
    (hs : stepId ≠ "") :
    ((t.markStepCompleted navCount stepId).2.isStepCompleted stepId) = true ∧
    ((t.markStepIncomplete navCount stepId).2.isStepCompleted stepId) = false ∧
    stepId ∉ ((t.markStepIncomplete navCount stepId).2.progress).map Prod.fst := by
  have hprog1 : (t.markStepCompleted navCount stepId).2.progress
      = assocSet t.progress stepId (.jbool true) := by
    cases hav : t.store.available <;>
      simp [Tracker.markStepCompleted, hs, Tracker.saveProgress, StorageManager.save, hav,
        Tracker.dispatchProgressEvent]
  have hprog2 : (t.markStepIncomplete navCount stepId).2.progress
      = assocDel t.progress stepId := by
    cases hav : t.store.available <;>
      simp [Tracker.markStepIncomplete, hs, Tracker.saveProgress, StorageManager.save, hav,
        Tracker.dispatchProgressEvent]
  refine ⟨?_, ?_, ?_⟩
  · simp [Tracker.isStepCompleted, hprog1, assocGet_assocSet_self, truthyOpt, JVal.truthy]
  · simp [Tracker.isStepCompleted, hprog2, assocGet_assocDel_self, truthyOpt]
  · rw [hprog2]
    exact not_mem_keys_assocDel _ _

/-- Witness for C3 at step 3 of a five-marker page. -/
theorem c3_mark_then_query_witness :
    ((demoTracker.markStepCompleted 5 "3").2.isStepCompleted "3") = true ∧
    ((demoTracker.markStepIncomplete 5 "3").2.isStepCompleted "3") = false ∧
    "3" ∉ ((demoTracker.markStepIncomplete 5 "3").2.progress).map Prod.fst :=
  c3_mark_then_query 5 "3" demoTracker (by decide)

/-- Claim C4: markStepCompleted of an absent stepId (undefined) and of the
empty string both return false and return the state untouched: no record
mutation, no persistence, no dispatched event. -/
theorem c4_falsy_step_rejected (navCount : Nat) (t : Tracker) :
    t.markStepCompletedArg navCount none = (false, t) ∧
    t.markStepCompletedArg navCount (some "") = (false, t) := by
  refine ⟨rfl, ?_⟩
  simp [Tracker.markStepCompletedArg, Tracker.markStepCompleted]

/-- Claim C5: export immediately followed by import of the exported
snapshot leaves the record and the summary unchanged, and reports success
exactly when the storage write goes through. -/
theorem c5_export_import_roundtrip (navCount : Nat) (ts : String) (t : Tracker) :
    (t.importProgress navCount
        (.obj (some (t.exportProgress navCount ts).progress))).2.progress = t.progress ∧
    getProgressSummary navCount
        (t.importProgress navCount
          (.obj (some (t.exportProgress navCount ts).progress))).2.progress
      = getProgressSummary navCount t.progress ∧
    (t.importProgress navCount
        (.obj (some (t.exportProgress navCount ts).progress))).1 = t.store.available := by
  cases hav : t.store.available <;>
    simp [Tracker.importProgress, Tracker.exportProgress, Tracker.saveProgress,
      StorageManager.save, hav, Tracker.dispatchProgressEvent]

/-- Claim C6: re-marking an already completed step with working storage is
a no-op on the record and on the summary, yet it writes to storage again
and dispatches a fresh step-completed event. -/
theorem c6_idempotent_remark (navCount : Nat) (stepId : String) (t : Tracker)
    (hs : stepId ≠ "") (hc : assocGet t.progress stepId = some (.jbool true))
    (hav : t.store.available = true) :
    (t.markStepCompleted navCount stepId).1 = true ∧
    (t.markStepCompleted navCount stepId).2.progress = t.progress ∧
    getProgressSummary navCount (t.markStepCompleted navCount stepId).2.progress
      = getProgressSummary navCount t.progress ∧
    (t.markStepCompleted navCount stepId).2.store.writes = t.store.writes + 1 ∧
    (t.markStepCompleted navCount stepId).2.events
      = t.events ++ [⟨"progress:" ++ "step-completed", some stepId,
          getProgressSummary navCount t.progress⟩] := by
  have hset : assocSet t.progress stepId (.jbool true) = t.progress :=
    assocSet_of_get_eq _ _ _ hc
  simp [Tracker.markStepCompleted, hs, Tracker.saveProgress, StorageManager.save, hav,
    Tracker.dispatchProgressEvent, hset]

/-- Witness for C6 at the tracker whose step 3 is already completed. -/
theorem c6_idempotent_remark_witness :
    (completedTracker.markStepCompleted 5 "3").1 = true ∧
    (completedTracker.markStepCompleted 5 "3").2.progress = completedTracker.progress ∧
    getProgressSummary 5 (completedTracker.markStepCompleted 5 "3").2.progress
      = getProgressSummary 5 completedTracker.progress ∧
    (completedTracker.markStepCompleted 5 "3").2.store.writes
      = completedTracker.store.writes + 1 ∧
    (completedTracker.markStepCompleted 5 "3").2.events
      = completedTracker.events ++ [⟨"progress:" ++ "step-completed", some "3",
          getProgressSummary 5 completedTracker.progress⟩] :=
  c6_idempotent_remark 5 "3" completedTracker (by decide) (by decide) rfl

/-- Claim C7: importProgress rejects a non-object argument (null, undefined
or a primitive) with no mutation at all; on an object it replaces the
record wholesale with the spread copy of the progress field (empty when
missing), reports the save result, bumps the write count and dispatches
progress-imported exactly when the save succeeded. -/
theorem c7_import_validation (navCount : Nat) (t : Tracker) (pf : Option ProgressMap) :
    t.importProgress navCount .nonObject = (false, t) ∧
    (t.importProgress navCount (.obj pf)).2.progress = pf.getD [] ∧
    (t.importProgress navCount (.obj pf)).1 = t.store.available ∧
    (t.importProgress navCount (.obj pf)).2.store.writes
      = (if t.store.available then t.store.writes + 1 else t.store.writes) ∧
    (t.importProgress navCount (.obj pf)).2.events
      = (if t.store.available
         then t.events ++ [⟨"progress:" ++ "progress-imported", none,
                getProgressSummary navCount (pf.getD [])⟩]
         else t.events) := by
  cases hav : t.store.available <;>
    simp [Tracker.importProgress, Tracker.saveProgress, StorageManager.save, hav,
      Tracker.dispatchProgressEvent]

/-- Claim C8: load returns the default when the storage primitive throws
(unavailable), when the cell is absent, and when the cell fails to parse
(corrupt data is absence, not a fatal error); load is a total function, so
it never throws to the caller. -/
theorem c8_load_defaults (sm : StorageManager) (st : LocalStorage) (key : String)
    (dflt : StoredVal) :
    (st.available = false → sm.load st key dflt = dflt) ∧
    (assocGet st.items (sm.getKey key) = none → sm.load st key dflt = dflt) ∧
    (assocGet st.items (sm.getKey key) = some .corrupt → sm.load st key dflt = dflt) := by
  refine ⟨fun h => by simp [StorageManager.load, h], fun h => ?_, fun h => ?_⟩
  · cases hav : st.available <;> simp [StorageManager.load, hav, h]
  · cases hav : st.available <;> simp [StorageManager.load, hav, h]

/-- Witness for C8: unavailable, absent and corrupt cells all yield the
default empty record. -/
theorem c8_load_defaults_witness :
    mcpStorage.load naStore "progress" (.object []) = .object [] ∧
    mcpStorage.load emptyStore "progress" (.object []) = .object [] ∧
    mcpStorage.load corruptStore "progress" (.object []) = .object [] :=
  ⟨(c8_load_defaults mcpStorage naStore "progress" (.object [])).1 rfl,
   (c8_load_defaults mcpStorage emptyStore "progress" (.object [])).2.1 (by decide),
   (c8_load_defaults mcpStorage corruptStore "progress" (.object [])).2.2 (by decide)⟩

/-- Claim C9: clear removes exactly the cells whose key starts with the
namespace prefix: a cell survives the clear exactly when it was there
before and its key is outside the prefix; on unavailable storage clear
returns false and changes nothing. -/
theorem c9_clear_namespace_only (sm : StorageManager) (st : LocalStorage) :
    (st.available = false → sm.clear st = (false, st)) ∧
    (st.available = true →
      (sm.clear st).1 = true ∧
      ∀ kv : String × RawItem,
        kv ∈ (sm.clear st).2.items
          ↔ kv ∈ st.items ∧ strStartsWith (sm.ns ++ "_") kv.1 = false) := by
  constructor
  · intro h
    simp [StorageManager.clear, h]
  · intro h
    constructor
    · simp [StorageManager.clear, h]
    · intro kv
      have hmem : kv ∈ (sm.clear st).2.items ↔
          kv ∈ st.items ∧ kv.1 ∉ (st.items.map Prod.fst).filter
            (fun k => strStartsWith (sm.ns ++ "_") k) := by
        simp only [StorageManager.clear, h, if_true]
        exact mem_foldl_assocDel _ _ _
      rw [hmem]
      constructor
      · rintro ⟨h1, h2⟩
        refine ⟨h1, ?_⟩
        cases hpre : strStartsWith (sm.ns ++ "_") kv.1
        · rfl
        · exact absurd (List.mem_filter.2 ⟨List.mem_map_of_mem Prod.fst h1, hpre⟩) h2
      · rintro ⟨h1, h2⟩
        refine ⟨h1, fun hin => ?_⟩
        have hpre := (List.mem_filter.1 hin).2
        rw [h2] at hpre
        exact Bool.false_ne_true hpre

/-- Witness for C9: clearing the mcp namespace removes the mcp progress
cell and keeps the theme cell. -/
theorem c9_clear_namespace_only_witness :
    (mcpStorage.clear mixedStore).1 = true ∧
    ("mcp_progress", RawItem.ok (.object [("1", .jbool true)]))
      ∉ (mcpStorage.clear mixedStore).2.items ∧
    ("theme_preference", RawItem.ok (.scalar (.jstr "dark")))
      ∈ (mcpStorage.clear mixedStore).2.items := by
  have h := (c9_clear_namespace_only mcpStorage mixedStore).2 rfl
  refine ⟨h.1, fun hin => ?_, ?_⟩
  · exact absurd ((h.2 _).1 hin).2 (by decide)
  · exact (h.2 _).2 (by decide)

/-- Claim C10: the summary is internally consistent on every record with
distinct keys: completedSteps counts the truthy entries, completedStepIds
is exactly the keys carrying truthy values in order, its length equals
completedSteps, and the record operations preserve distinctness of keys. -/
theorem c10_summary_internally_consistent (navCount : Nat) (p : ProgressMap)
    (hnd : (p.map Prod.fst).Nodup) :
    (getProgressSummary navCount p).completedSteps
      = (p.filter (fun kv => kv.2.truthy)).length ∧
    (getProgressSummary navCount p).completedStepIds
      = (p.filter (fun kv => kv.2.truthy)).map Prod.fst ∧
    (getProgressSummary navCount p).completedStepIds.length
      = (getProgressSummary navCount p).completedSteps ∧
    (∀ stepId v, ((assocSet p stepId v).map Prod.fst).Nodup) ∧
    (∀ stepId, ((assocDel p stepId).map Prod.fst).Nodup) := by
  refine ⟨count_eq_length_filter p, completedStepIds_eq p hnd, ?_,
    fun stepId v => nodup_keys_assocSet p stepId v hnd,
    fun stepId => nodup_keys_assocDel p stepId hnd⟩
  simp [getProgressSummary, completedStepIds_eq p hnd, count_eq_length_filter]

/-- Witness for C10 at a two-entry record with one truthy value. -/
theorem c10_summary_internally_consistent_witness :
    (getProgressSummary 4 c10Map).completedSteps
      = (c10Map.filter (fun kv => kv.2.truthy)).length ∧
    (getProgressSummary 4 c10Map).completedStepIds
      = (c10Map.filter (fun kv => kv.2.truthy)).map Prod.fst ∧
    (getProgressSummary 4 c10Map).completedStepIds.length
      = (getProgressSummary 4 c10Map).completedSteps ∧
    ((assocSet c10Map "9" (.jbool true)).map Prod.fst).Nodup ∧
    ((assocDel c10Map "1").map Prod.fst).Nodup := by
  have h := c10_summary_internally_consistent 4 c10Map (by decide)
  exact ⟨h.1, h.2.1, h.2.2.1, h.2.2.2.1 "9" (.jbool true), h.2.2.2.2 "1"⟩

end DevLabs
